import Mathlib

/-!
Verification of the document-processing pipeline of the `ux-for-llm`
repository: document extraction (`textExtraction.ts`), text preprocessing
(`textPreprocessing.ts`), tokenization (`tokenization.ts`), file validation
(`fileValidation.ts`) and the batch orchestration in `App`.

Texts are embedded as `List Char` (a JS string is a sequence of code
units).  JavaScript primitives used by the source (`trim`, `split`,
`Math.round`, regex `replace`, number division) are modelled explicitly
below; the repository's functions are then direct transcriptions.
-/

namespace UxForLlm

/-- JavaScript `\s` character class (the whitespace set used by `trim`,
`split(/\s+/)` and the `\s` occurrences in the preprocessing regexes). -/
def jsWs (c : Char) : Bool :=
  c = ' ' || c = '\t' || c = '\n' || c = '\r' || c = '\x0b' || c = '\x0c' ||
  c = '\u00A0' || c = '\u1680' || ('\u2000' ≤ c && c ≤ '\u200A') ||
  c = '\u2028' || c = '\u2029' || c = '\u202F' || c = '\u205F' ||
  c = '\u3000' || c = '\uFEFF'

/-- The character class `[A-ZÀ-Ÿ]` of the preprocessing regexes (code
units 0x41–0x5A and 0xC0–0x178). -/
def jsUpper (c : Char) : Bool :=
  ('A' ≤ c && c ≤ 'Z') || ('\u00C0' ≤ c && c ≤ '\u0178')

/-- The character class `[A-ZÀ-Ÿ\s]`. -/
def upperOrWs (c : Char) : Bool := jsUpper c || jsWs c

/-- Right half of JS `String.prototype.trim`. -/
def jsTrimRight (cs : List Char) : List Char :=
  (cs.reverse.dropWhile jsWs).reverse

/-- JS `String.prototype.trim`: drop whitespace from both ends. -/
def jsTrim (cs : List Char) : List Char :=
  (jsTrimRight cs).dropWhile jsWs

/-- `trim` on a `String`, for the tokenizer configuration check. -/
def jsTrimStr (s : String) : String := ⟨jsTrim s.data⟩

/-- JS `Math.round` on an exact rational: round half toward positive
infinity. -/
def jsRound (q : ℚ) : ℤ := ⌊q + 1 / 2⌋

/-- A JS number as produced by dividing two nonnegative lengths: a finite
rational, `NaN` (from `0/0`) or `Infinity` (from `n/0`, `n > 0`). -/
inductive JSNum where
  | finite (q : ℚ)
  | nan
  | inf
deriving DecidableEq

/-- JS division of two nonnegative integers (`a / b` on lengths/counts):
division by zero yields `NaN` when the numerator is also zero and
`Infinity` otherwise. -/
def jsDivNat (a b : Nat) : JSNum :=
  if b = 0 then (if a = 0 then JSNum.nan else JSNum.inf)
  else JSNum.finite ((a : ℚ) / (b : ℚ))

/-- JS `split('\n')` on a literal separator: `""` splits to `[""]`,
every `'\n'` starts a new piece. -/
def jsSplitNl : List Char → List (List Char)
  | [] => [[]]
  | c :: rest =>
    if c = '\n' then [] :: jsSplitNl rest
    else
      match jsSplitNl rest with
      | t :: ts => (c :: t) :: ts
      | [] => [[c]]

/-- JS `split(/\s+/)`: pieces between maximal whitespace runs, keeping the
empty leading/trailing pieces the way JS does. -/
def jsSplitWs : List Char → List (List Char)
  | [] => [[]]
  | c :: rest =>
    if jsWs c then [] :: jsSplitWs (rest.dropWhile jsWs)
    else
      match jsSplitWs rest with
      | t :: ts => (c :: t) :: ts
      | [] => [[c]]
termination_by cs => cs.length
decreasing_by
  · simp only [List.length_cons]
    exact Nat.lt_succ_of_le (List.IsSuffix.length_le (List.dropWhile_suffix jsWs))
  · simp

/-- JS `Array.prototype.join(sep)`. -/
def joinSep (sep : List Char) : List (List Char) → List Char
  | [] => []
  | [x] => x
  | x :: y :: ys => x ++ sep ++ joinSep sep (y :: ys)

/-- Word count as computed twice in the source:
`text.split(/\s+/).filter(word => word.length > 0).length`. -/
def jsWordCount (cs : List Char) : Nat :=
  ((jsSplitWs cs).filter (fun w => decide (0 < w.length))).length

/-! ### A small backtracking regex engine

The four `replace` calls of `TextPreprocessor.preprocessText` use regexes
built only from character classes, literals, concatenation and greedy
quantifiers (`*`, `+`, `{2,}`, `{3,}`).  `RE` mirrors exactly those
constructs and `reM` implements JS leftmost greedy matching with
backtracking, in continuation-passing style.  The fuel argument bounds
`star` unfoldings; every starred subpattern here consumes at least one
character per iteration, so `length + 1` fuel is always enough. -/

inductive RE where
  | cls (p : Char → Bool)
  | lit (c : Char)
  | seq (a b : RE)
  | star (r : RE)

/-- Backtracking matcher: try to match `r` against a prefix of `cs`, then
run the continuation `k` on the remainder; greedy `star` tries the longer
match first and falls back on failure.  Structural recursion on fuel, so
that matches reduce definitionally; callers pass fuel ample for the fixed
patterns of the source (each starred subpattern consumes a character per
iteration). -/
def reM {α : Type} : Nat → RE → List Char → (List Char → Option α) → Option α
  | 0, _, _, _ => none
  | _ + 1, RE.cls p, cs, k =>
    match cs with
    | c :: rest => if p c then k rest else none
    | [] => none
  | _ + 1, RE.lit c0, cs, k =>
    match cs with
    | c :: rest => if c = c0 then k rest else none
    | [] => none
  | fuel + 1, RE.seq a b, cs, k => reM fuel a cs (fun rest => reM fuel b rest k)
  | fuel + 1, RE.star r, cs, k =>
    (reM fuel (RE.seq r (RE.star r)) cs k).orElse (fun _ => k cs)

/-- Ample fuel for matching any of the source's fixed patterns against
`cs`: each character consumed costs a bounded number of `reM` steps. -/
def reFuel (cs : List Char) : Nat := 8 * cs.length + 64

/-- `X{2,}` (greedy) over a character class. -/
def rep2 (p : Char → Bool) : RE :=
  RE.seq (RE.cls p) (RE.seq (RE.cls p) (RE.star (RE.cls p)))

/-- `X{3,}` (greedy) over a character class. -/
def rep3 (p : Char → Bool) : RE :=
  RE.seq (RE.cls p) (RE.seq (RE.cls p) (RE.seq (RE.cls p) (RE.star (RE.cls p))))

/-- `X+` (greedy) over a character class. -/
def rep1 (p : Char → Bool) : RE :=
  RE.seq (RE.cls p) (RE.star (RE.cls p))

/-- Group 1 of the field-marker regex: `[A-ZÀ-Ÿ][A-ZÀ-Ÿ\s]{2,}`. -/
def fieldGroupRE : RE := RE.seq (RE.cls jsUpper) (rep2 upperOrWs)

/-- The header regex `[A-ZÀ-Ÿ]{3,}[A-ZÀ-Ÿ\s]+[A-ZÀ-Ÿ]{3,}` (whole match
is group 1). -/
def headerRE : RE := RE.seq (rep3 jsUpper) (RE.seq (rep1 upperOrWs) (rep3 jsUpper))

/-- Try `([A-ZÀ-Ÿ][A-ZÀ-Ÿ\s]{2,})\s*:` at the current position; on success
return the text of group 1 and the input after the whole match. -/
def fieldMatchAt (cs : List Char) : Option (List Char × List Char) :=
  reM (reFuel cs) fieldGroupRE cs (fun rest1 =>
    reM (reFuel cs) (RE.star (RE.cls jsWs)) rest1 (fun rest2 =>
      match rest2 with
      | ':' :: rest3 => some (cs.take (cs.length - rest1.length), rest3)
      | _ => none))

/-- Try the header regex at the current position; on success return the
matched text and the remaining input. -/
def headerMatchAt (cs : List Char) : Option (List Char × List Char) :=
  reM (reFuel cs) headerRE cs (fun rest =>
    some (cs.take (cs.length - rest.length), rest))

/-- Try `\n{3,}` at the current position. -/
def nlRunMatchAt (cs : List Char) : Option (List Char × List Char) :=
  reM (reFuel cs) (rep3 (fun c => c = '\n')) cs (fun rest =>
    some (cs.take (cs.length - rest.length), rest))

/-- Try `\s+` at the current position. -/
def wsRunMatchAt (cs : List Char) : Option (List Char × List Char) :=
  reM (reFuel cs) (rep1 jsWs) cs (fun rest =>
    some (cs.take (cs.length - rest.length), rest))

/-- One step of a global `replace`: a matcher returning the replacement
text and the rest of the input after the match. -/
def gRepl (m : List Char → Option (List Char × List Char)) :
    Nat → List Char → List Char
  | 0, cs => cs
  | fuel + 1, cs =>
    match m cs with
    | some (rep, rest) =>
      if rest.length < cs.length then rep ++ gRepl m fuel rest
      else
        match cs with
        | [] => rep
        | c :: cs' => rep ++ c :: gRepl m fuel cs'
    | none =>
      match cs with
      | [] => []
      | c :: cs' => c :: gRepl m fuel cs'

/-- JS `String.prototype.replace` with a `/g` regex: scan left to right,
replacing each match and moving one character past failures. -/
def jsReplaceAll (m : List Char → Option (List Char × List Char))
    (cs : List Char) : List Char :=
  gRepl m (cs.length + 1) cs

/-- `replace(/\s+/g, ' ')`. -/
def normalizeWhitespaceStep (cs : List Char) : List Char :=
  jsReplaceAll (fun s => (wsRunMatchAt s).map (fun gr => ([' '], gr.2))) cs

/-- `replace(/([A-ZÀ-Ÿ][A-ZÀ-Ÿ\s]{2,})\s*:/g, '\n$1:')`. -/
def fieldMarkersStep (cs : List Char) : List Char :=
  jsReplaceAll (fun s => (fieldMatchAt s).map (fun gr => ('\n' :: gr.1 ++ [':'], gr.2))) cs

/-- `replace(/([A-ZÀ-Ÿ]{3,}[A-ZÀ-Ÿ\s]+[A-ZÀ-Ÿ]{3,})/g, '\n\n$1')`. -/
def headerMarkersStep (cs : List Char) : List Char :=
  jsReplaceAll (fun s => (headerMatchAt s).map (fun gr => ('\n' :: '\n' :: gr.1, gr.2))) cs

/-- `replace(/\n{3,}/g, '\n\n')`. -/
def collapseNewlinesStep (cs : List Char) : List Char :=
  jsReplaceAll (fun s => (nlRunMatchAt s).map (fun gr => (['\n', '\n'], gr.2))) cs

/-! ### `TextPreprocessor` (src `textPreprocessing.ts`) -/

/-- `PreprocessingOptions` with the defaults destructured in
`preprocessText`. -/
structure PreprocessingOptions where
  preserveOriginalStructure : Bool := false
  addFieldMarkers : Bool := true
  addHeaderMarkers : Bool := true
  normalizeWhitespace : Bool := true
deriving DecidableEq

/-- `TextPreprocessor.preprocessText`: whitespace normalization, field
markers, header markers, newline collapsing, then `trim`. -/
def preprocessText (rawText : List Char)
    (options : PreprocessingOptions := {}) : List Char :=
  let cleaned := rawText
  let cleaned := if options.normalizeWhitespace then normalizeWhitespaceStep cleaned else cleaned
  let cleaned := if options.addFieldMarkers then fieldMarkersStep cleaned else cleaned
  let cleaned := if options.addHeaderMarkers then headerMarkersStep cleaned else cleaned
  let cleaned := collapseNewlinesStep cleaned
  jsTrim cleaned

/-- The record built by `getPreprocessingStats`. -/
structure PreprocessingStats where
  originalWordCount : Nat
  processedWordCount : Nat
  originalLineCount : Nat
  processedLineCount : Nat
  compressionRatio : JSNum
  structureImprovement : JSNum
deriving DecidableEq

/-- `TextPreprocessor.getPreprocessingStats`: word counts via
`split(/\s+/).filter(...)`, line counts via `split('\n')`, and the two
JS divisions written without any zero-denominator guard. -/
def getPreprocessingStats (originalText processedText : List Char) :
    PreprocessingStats :=
  { originalWordCount := jsWordCount originalText
    processedWordCount := jsWordCount processedText
    originalLineCount := (jsSplitNl originalText).length
    processedLineCount := (jsSplitNl processedText).length
    compressionRatio := jsDivNat processedText.length originalText.length
    structureImprovement :=
      jsDivNat (jsSplitNl processedText).length (jsSplitNl originalText).length }

/-! ### `TokenizationService` (src `tokenization.ts`) -/

/-- `TokenizedData` (src `types/index.ts`); `tokenizedAt` as an abstract
timestamp. -/
structure TokenizedData where
  tokens : List String
  tokenIds : List Int
  tokenCount : Nat
  modelName : String
  tokenizedAt : Nat
deriving DecidableEq

/-- `TokenizationConfigType` (src `types/index.ts`). -/
structure TokenizationConfigType where
  modelName : String
  azureFunctionUrl : String
  apiKey : Option String
deriving DecidableEq

/-- The hard-coded Azure Function endpoint of the constructor. -/
def defaultTokenizerUrl : String :=
  "https://ocp10-tokenizer-function.azurewebsites.net/api/tokenizerfunction"

/-- The documentation placeholder URL the constructor rejects. -/
def placeholderUrl : String :=
  "https://your-function-app.azurewebsites.net/api/tokenize"

/-- The `TokenizationService` constructor.  `envUrl`/`envKey` are the
`import.meta.env` values (a JS string or `undefined`); `x || default`
substitutes the default for `undefined` and for the empty string, and a
second guard replaces a falsy or placeholder URL by the default. -/
def mkTokenizationConfig (envUrl envKey : Option String) :
    TokenizationConfigType :=
  let url0 := match envUrl with
    | some u => if u = "" then defaultTokenizerUrl else u
    | none => defaultTokenizerUrl
  let config : TokenizationConfigType :=
    { modelName := "gpt-oss-120b", azureFunctionUrl := url0, apiKey := envKey }
  if config.azureFunctionUrl = "" || config.azureFunctionUrl = placeholderUrl then
    { config with azureFunctionUrl := defaultTokenizerUrl }
  else
    config

/-- A partial configuration, as accepted by `updateConfig`. -/
structure TokenizationConfigPatch where
  modelName : Option String := none
  azureFunctionUrl : Option String := none
  apiKey : Option (Option String) := none

/-- `TokenizationService.updateConfig`: spread-merge of the patch over the
current configuration. -/
def updateConfig (config : TokenizationConfigType)
    (patch : TokenizationConfigPatch) : TokenizationConfigType :=
  { modelName := patch.modelName.getD config.modelName
    azureFunctionUrl := patch.azureFunctionUrl.getD config.azureFunctionUrl
    apiKey := patch.apiKey.getD config.apiKey }

/-- The `tokens` field of a tokenizer response body: JS-falsy or absent
(`!result.tokens` true), a truthy non-array value, or an actual array. -/
inductive JsonTokens where
  | absentOrFalsy
  | truthyNonArray
  | arr (ts : List String)
deriving DecidableEq

/-- A response already received from the tokenizer service (the part of
`fetch`'s result that `tokenizeText` inspects). -/
structure TokResponse where
  ok : Bool
  status : Nat
  statusText : String
  errorText : String
  tokens : JsonTokens
  tokenIdsField : Option (List Int)
  modelField : Option String
deriving DecidableEq

/-- The `NotConfigured` error message of `tokenizeText`. -/
def notConfiguredMsg : String :=
  "Azure Function URL not configured. Please configure the tokenizer in the header \"Tokenizer Config\" section."

/-- The `InvalidResponse` error message of `tokenizeText`. -/
def invalidResponseMsg : String :=
  "Invalid response format: missing tokens array"

/-- `TokenizationService.tokenizeText`, given the response the service
returned and the current time: the `!url || url.trim() === ''` guard, the
`!response.ok` branch, the `tokens`-array validation, and the construction
of `TokenizedData` with `token_ids || []` and `model || config.modelName`. -/
def tokenizeText (config : TokenizationConfigType) (resp : TokResponse)
    (now : Nat) : Except String TokenizedData :=
  if config.azureFunctionUrl = "" || jsTrimStr config.azureFunctionUrl = "" then
    Except.error notConfiguredMsg
  else if !resp.ok then
    Except.error ("Tokenization failed: " ++ toString resp.status ++ " " ++
      resp.statusText ++ ". " ++ resp.errorText)
  else
    match resp.tokens with
    | JsonTokens.absentOrFalsy => Except.error invalidResponseMsg
    | JsonTokens.truthyNonArray => Except.error invalidResponseMsg
    | JsonTokens.arr ts =>
      Except.ok
        { tokens := ts
          tokenIds := resp.tokenIdsField.getD []
          tokenCount := ts.length
          modelName := resp.modelField.getD config.modelName
          tokenizedAt := now }

/-! ### `validateFile` (src `fileValidation.ts`) -/

/-- `ALLOWED_FILE_TYPES` as written in the source — note it includes the
legacy `application/msword` type. -/
def ALLOWED_FILE_TYPES : List String :=
  ["application/pdf",
   "application/vnd.openxmlformats-officedocument.wordprocessingml.document",
   "application/msword",
   "text/plain"]

/-- `MAX_FILE_SIZE = 50 * 1024 * 1024`. -/
def MAX_FILE_SIZE : Nat := 50 * 1024 * 1024

/-- `ValidationResult`. -/
structure ValidationResult where
  isValid : Bool
  error : Option String := none
deriving DecidableEq

/-- The part of a `File` that `validateFile` inspects. -/
structure VFile where
  name : String
  type : String
  size : Nat
deriving DecidableEq

/-- `validateFile`: reject types outside `ALLOWED_FILE_TYPES`, files over
50MB, and empty files, in that order. -/
def validateFile (file : VFile) : ValidationResult :=
  if file.type ∉ ALLOWED_FILE_TYPES then
    { isValid := false
      error := some "Unsupported file type. Please upload PDF, Word document (.docx, .doc), or text file." }
  else if MAX_FILE_SIZE < file.size then
    { isValid := false
      error := some ("File too large (" ++
        toString (jsRound ((file.size : ℚ) / (1024 * 1024))) ++
        "MB). Maximum size is 50MB.") }
  else if file.size = 0 then
    { isValid := false
      error := some "File is empty. Please upload a valid document." }
  else
    { isValid := true, error := none }

/-! ### `DocumentExtractor` (src `textExtraction.ts`) -/

/-- The `status` field of `ProcessingStatus` (src `types/index.ts`). -/
inductive StatusTag where
  | uploading
  | extracting
  | completed
  | error
deriving DecidableEq

/-- `ProcessingStatus` (src `types/index.ts`); `progress` is an exact
rational, since the tokenization callback scales by `0.03`. -/
structure ProcStatus where
  id : String
  status : StatusTag
  progress : ℚ
  message : String
  error : Option String := none

/-- The part of a `File` the extractor inspects directly. -/
structure FileInfo where
  name : String
  type : String

/-- `ExtractedDocument` (src `types/index.ts`), with `metadata`
flattened to its only populated field. -/
structure ExtractedDocument where
  id : String
  fileName : String
  fileType : String
  extractedText : List Char
  preprocessedText : Option (List Char)
  tokenizedData : Option TokenizedData
  wordCount : Nat
  extractedAt : Nat
  preprocessingStats : Option PreprocessingStats

/-- The outside world as seen by one `extractText` call: the parsed PDF
(pages of text-content item strings, `none` when loading fails), the
`mammoth` result, the `file.text()` result, the tokenizer outcome with the
progress callbacks it made, and the clock values. -/
structure ExtractionEnv where
  pdfDoc : Option (List (List (List Char)))
  docxRaw : Option (List Char)
  textRaw : Option (List Char)
  tok : Except String TokenizedData
  tokEvents : List (ℚ × String)
  startTime : Nat
  processingTime : Nat
  extractedAt : Nat

/-- Failure message of `extractFromPDF`. -/
def pdfFailMsg : String :=
  "Failed to extract text from PDF. Please ensure the file is not corrupted."

/-- Failure message of `extractFromDocx`. -/
def docxFailMsg : String :=
  "Failed to extract text from Word document. Please ensure the file is not corrupted."

/-- Failure message of `extractFromText`. -/
def textFailMsg : String := "Failed to read text file."

/-- The `extractText` error message for the legacy binary Word format. -/
def legacyDocMsg : String :=
  "Legacy .doc files are not supported. Please convert to .docx format."

/-- The initial progress event of `extractFromPDF`. -/
def pdfLoadEvent (fileName : String) : ProcStatus :=
  { id := fileName, status := StatusTag.extracting, progress := 10
    message := "Loading PDF document..." }

/-- The per-page progress event of `extractFromPDF`:
`Math.round((pageNum / totalPages) * 80) + 10`. -/
def pdfPageEvent (fileName : String) (pageNum totalPages : Nat) : ProcStatus :=
  { id := fileName, status := StatusTag.extracting
    progress := ((jsRound ((pageNum : ℚ) / (totalPages : ℚ) * 80) + 10 : ℤ) : ℚ)
    message := "Extracting text from page " ++ toString pageNum ++ " of " ++
      toString totalPages ++ "..." }

/-- One iteration of the page loop of `extractFromPDF`: emit the page
event, join the page's text-content items with single spaces, and append
`pageText + '\n\n'` to the accumulated text. -/
def pdfStep (fileName : String) (totalPages : Nat)
    (acc : List Char × List ProcStatus) (ip : Nat × List (List Char)) :
    List Char × List ProcStatus :=
  (acc.1 ++ joinSep [' '] ip.2 ++ ['\n', '\n'],
   acc.2 ++ [pdfPageEvent fileName (ip.1 + 1) totalPages])

/-- `DocumentExtractor.extractFromPDF`: pages are visited in order
1..N; the result is the accumulated text trimmed; any loading failure is
caught and rethrown as `pdfFailMsg`. -/
def extractFromPDF (fileName : String)
    (doc : Option (List (List (List Char)))) :
    Except String (List Char) × List ProcStatus :=
  match doc with
  | none => (Except.error pdfFailMsg, [pdfLoadEvent fileName])
  | some pages =>
    let totalPages := pages.length
    let res := pages.enum.foldl (pdfStep fileName totalPages)
      ([], [pdfLoadEvent fileName])
    (Except.ok (jsTrim res.1), res.2)

/-- `DocumentExtractor.extractFromDocx`. -/
def extractFromDocx (fileName : String) (docxRaw : Option (List Char)) :
    Except String (List Char) × List ProcStatus :=
  let evs : List ProcStatus :=
    [{ id := fileName, status := StatusTag.extracting, progress := 20
       message := "Reading Word document..." },
     { id := fileName, status := StatusTag.extracting, progress := 60
       message := "Extracting text content..." }]
  match docxRaw with
  | some v => (Except.ok v, evs)
  | none => (Except.error docxFailMsg, evs)

/-- `DocumentExtractor.extractFromText`. -/
def extractFromText (fileName : String) (textRaw : Option (List Char)) :
    Except String (List Char) × List ProcStatus :=
  let evs : List ProcStatus :=
    [{ id := fileName, status := StatusTag.extracting, progress := 50
       message := "Reading text file..." }]
  match textRaw with
  | some v => (Except.ok v, evs)
  | none => (Except.error textFailMsg, evs)

/-- The `switch (file.type)` dispatch of `extractText`.  The third output
component records which extractor was invoked (and hence whether any byte
of the file was read): the `application/msword` and default branches throw
without invoking any extractor. -/
def extractRaw (file : FileInfo) (env : ExtractionEnv) :
    Except String (List Char) × List ProcStatus × List String :=
  if file.type = "application/pdf" then
    let r := extractFromPDF file.name env.pdfDoc
    (r.1, r.2, ["pdf"])
  else if file.type = "application/vnd.openxmlformats-officedocument.wordprocessingml.document" then
    let r := extractFromDocx file.name env.docxRaw
    (r.1, r.2, ["docx"])
  else if file.type = "application/msword" then
    (Except.error legacyDocMsg, [], [])
  else if file.type = "text/plain" then
    let r := extractFromText file.name env.textRaw
    (r.1, r.2, ["text"])
  else
    (Except.error ("Unsupported file type: " ++ file.type), [], [])

/-- Result of one `extractText` call: the returned document or thrown
error, the progress events in emission order, and the extractors invoked. -/
structure ExtractRun where
  result : Except String ExtractedDocument
  events : List ProcStatus
  calls : List String

/-- The event emitted when tokenization fails inside `extractText`. -/
def tokUnavailableEvent (fileName : String) : ProcStatus :=
  { id := fileName, status := StatusTag.extracting, progress := 99
    message := "Tokenization unavailable, finalizing extraction..." }

/-- `DocumentExtractor.extractText`: dispatch on the declared type,
preprocess, compute stats, attempt tokenization — catching any tokenizer
error and continuing with `tokenizedData` left `undefined` — and emit the
final `completed` status; any extraction error is reported via an `error`
status and rethrown. -/
def extractText (file : FileInfo) (env : ExtractionEnv) : ExtractRun :=
  let startEvent : ProcStatus :=
    { id := file.name, status := StatusTag.extracting, progress := 5
      message := "Starting text extraction..." }
  match extractRaw file env with
  | (Except.error msg, evs, calls) =>
    { result := Except.error msg
      events := startEvent :: evs ++
        [{ id := file.name, status := StatusTag.error, progress := 0
           message := "Extraction failed", error := some msg }]
      calls := calls }
  | (Except.ok extractedText, evs, calls) =>
    let wordCount := jsWordCount extractedText
    let preprocessedText := preprocessText extractedText {}
    let preprocessingStats := getPreprocessingStats extractedText preprocessedText
    let tokEvs : List ProcStatus := env.tokEvents.map (fun pm =>
      { id := file.name, status := StatusTag.extracting
        progress := 96 + pm.1 * (3 / 100)
        message := "Tokenization: " ++ pm.2 })
    let tokenizedData : Option TokenizedData :=
      match env.tok with
      | Except.ok td => some td
      | Except.error _ => none
    let tokTailEvs : List ProcStatus :=
      match env.tok with
      | Except.ok _ => tokEvs
      | Except.error _ => tokEvs ++ [tokUnavailableEvent file.name]
    let doc : ExtractedDocument :=
      { id := file.name ++ "-" ++ toString env.startTime
        fileName := file.name
        fileType := file.type
        extractedText := extractedText
        preprocessedText := some preprocessedText
        tokenizedData := tokenizedData
        wordCount := wordCount
        extractedAt := env.extractedAt
        preprocessingStats := some preprocessingStats }
    let finalEvent : ProcStatus :=
      { id := file.name, status := StatusTag.completed, progress := 100
        message := "Extraction completed in " ++
          toString (jsRound ((env.processingTime : ℚ) / 1000)) ++ "s. " ++
          toString wordCount ++ " words extracted." }
    { result := Except.ok doc
      events := startEvent :: evs ++
        [{ id := file.name, status := StatusTag.extracting, progress := 95
           message := "Finalizing extraction..." },
         { id := file.name, status := StatusTag.extracting, progress := 96
           message := "Tokenizing text..." }] ++ tokTailEvs ++ [finalEvent]
      calls := calls }

/-! ### `App.processDocuments` (src `App.tsx`) -/

/-- A file submitted to a batch: its name, declared media type, and its
contents/service behaviour as an extraction environment. -/
structure UploadedFileM where
  name : String
  type : String
  env : ExtractionEnv

/-- `App.processDocuments`: loop over the batch; a file whose name and
declared type match a document in the `extractedDocuments` state captured
when the batch began (`prevDocs`) is reused verbatim; otherwise
`extractor.extractText` is invoked (recorded in the second component),
pushing the document on success and only reporting on failure.  The state
is written back once, after the whole batch. -/
def processDocuments (prevDocs : List ExtractedDocument)
    (files : List UploadedFileM) : List ExtractedDocument × List String :=
  files.foldl (fun acc uf =>
    match prevDocs.find? (fun doc =>
        doc.fileName == uf.name && doc.fileType == uf.type) with
    | some d => (acc.1 ++ [d], acc.2)
    | none =>
      let run := extractText { name := uf.name, type := uf.type } uf.env
      match run.result with
      | Except.ok doc => (acc.1 ++ [doc], acc.2 ++ [uf.name])
      | Except.error _ => (acc.1, acc.2 ++ [uf.name]))
    ([], [])

/-! ### Theorems -/

/-- C4: normalization is total — for every input string (including the
empty and whitespace-only strings) and every combination of recognized
options, `preprocessText` returns a string; in particular it maps the
empty string and a whitespace-only string to the empty string. -/
theorem preprocessText_total (raw : List Char) (options : PreprocessingOptions) :
    (∃ t : List Char, preprocessText raw options = t) ∧
    preprocessText [] ({} : PreprocessingOptions) = [] ∧
    preprocessText [' ', '\n', '\t'] ({} : PreprocessingOptions) = [] :=
  ⟨⟨_, rfl⟩, rfl, by decide⟩

/-- C9: `preserveOriginalStructure` is a no-op — for every input and every
setting of the other three options, `preprocessText` with the flag on
returns exactly the same string as with the flag off. -/
theorem preprocessText_preserveOriginalStructure_noop (raw : List Char)
    (fm hm nw : Bool) :
    preprocessText raw
      { preserveOriginalStructure := true, addFieldMarkers := fm
        addHeaderMarkers := hm, normalizeWhitespace := nw } =
    preprocessText raw
      { preserveOriginalStructure := false, addFieldMarkers := fm
        addHeaderMarkers := hm, normalizeWhitespace := nw } := rfl

/-- C2 (code bug): on an empty original text `getPreprocessingStats`
computes `0 / 0`, which in JS is `NaN`, not the `0` the specification
requires — the source has no zero-denominator guard. -/
theorem getPreprocessingStats_empty_original_nan :
    (getPreprocessingStats [] []).compressionRatio = JSNum.nan ∧
    JSNum.nan ≠ JSNum.finite 0 :=
  ⟨rfl, by decide⟩

/-- C7 counterexample: a file declared as the legacy binary Word media
type `application/msword` passes `validateFile` — the claim that the
validator rejects it is false. -/
theorem validateFile_msword_accepted :
    validateFile { name := "x.doc", type := "application/msword", size := 100 } =
      { isValid := true, error := none } ∧
    (true : Bool) ≠ false :=
  ⟨by decide, by decide⟩

/-- C7 (amended): `validateFile` accepts a file iff its declared type is
in `ALLOWED_FILE_TYPES`, it is at most 50MB, and it is nonempty; every
rejection carries an error message.  The allowed list *includes* the
legacy `application/msword` type, whose rejection is deferred to the
extractor. -/
theorem validateFile_characterization (f : VFile) :
    ((validateFile f).isValid = true ↔
      (f.type ∈ ALLOWED_FILE_TYPES ∧ f.size ≤ MAX_FILE_SIZE ∧ f.size ≠ 0)) ∧
    ((validateFile f).isValid = false → ((validateFile f).error).isSome = true) ∧
    "application/msword" ∈ ALLOWED_FILE_TYPES := by
  refine ⟨?_, ?_, by decide⟩
  · unfold validateFile
    split_ifs with h1 h2 h3 <;> simp_all
  · unfold validateFile
    split_ifs <;> simp

/-- A well-formed successful tokenizer response, used as a probe. -/
def sampleOkResponse : TokResponse :=
  { ok := true, status := 200, statusText := "OK", errorText := ""
    tokens := JsonTokens.arr ["hello"], tokenIdsField := some [1]
    modelField := none }

/-- C10 counterexample: with the environment URL set to a whitespace-only
string (truthy, not the placeholder), the constructor keeps it, and
`tokenizeText` hits the `NotConfigured` branch under the initial
configuration, with no `updateConfig` call — the claimed unreachability is
false. -/
theorem notConfigured_reachable_initial_config :
    (mkTokenizationConfig (some " ") none).azureFunctionUrl = " " ∧
    tokenizeText (mkTokenizationConfig (some " ") none) sampleOkResponse 0 =
      Except.error notConfiguredMsg :=
  ⟨rfl, rfl⟩

/-- C10 (amended): after construction the service URL is always a
non-empty string, and the `NotConfigured` guard of `tokenizeText` (which
fires exactly when the URL trims to the empty string) is reachable under
the initial configuration precisely when the environment supplies a
whitespace-only URL that is neither empty nor the documentation
placeholder; otherwise it can only be reached via `updateConfig`. -/
theorem mkTokenizationConfig_url_invariant (envUrl envKey : Option String) :
    (mkTokenizationConfig envUrl envKey).azureFunctionUrl ≠ "" ∧
    (jsTrimStr (mkTokenizationConfig envUrl envKey).azureFunctionUrl = "" ↔
      ∃ u, envUrl = some u ∧ u ≠ "" ∧ u ≠ placeholderUrl ∧ jsTrimStr u = "") := by
  have hdefNe : defaultTokenizerUrl ≠ "" := by decide
  have hdefTrim : jsTrimStr defaultTokenizerUrl ≠ "" := by decide
  cases envUrl with
  | none =>
    have hurl : (mkTokenizationConfig none envKey).azureFunctionUrl = defaultTokenizerUrl := by
      simp [mkTokenizationConfig, defaultTokenizerUrl, placeholderUrl]
    rw [hurl]
    refine ⟨hdefNe, ?_, ?_⟩
    · intro h
      exact absurd h hdefTrim
    · rintro ⟨u, hu, -⟩
      exact Option.noConfusion hu
  | some u =>
    by_cases hu : u = ""
    · subst hu
      have hurl : (mkTokenizationConfig (some "") envKey).azureFunctionUrl = defaultTokenizerUrl := by
        simp [mkTokenizationConfig, defaultTokenizerUrl, placeholderUrl]
      rw [hurl]
      refine ⟨hdefNe, ?_, ?_⟩
      · intro h
        exact absurd h hdefTrim
      · rintro ⟨v, hv, hv1, -⟩
        exact absurd (Option.some.inj hv).symm hv1
    · by_cases hp : u = placeholderUrl
      · subst hp
        have hurl : (mkTokenizationConfig (some placeholderUrl) envKey).azureFunctionUrl = defaultTokenizerUrl := by
          simp [mkTokenizationConfig, defaultTokenizerUrl, placeholderUrl]
        rw [hurl]
        refine ⟨hdefNe, ?_, ?_⟩
        · intro h
          exact absurd h hdefTrim
        · rintro ⟨v, hv, -, hv2, -⟩
          exact absurd (Option.some.inj hv).symm hv2
      · have hurl : (mkTokenizationConfig (some u) envKey).azureFunctionUrl = u := by
          simp [mkTokenizationConfig, hu, hp]
        rw [hurl]
        refine ⟨hu, ?_, ?_⟩
        · intro h
          exact ⟨u, rfl, hu, hp, h⟩
        · rintro ⟨v, hv, -, -, hv3⟩
          rw [← Option.some.inj hv] at hv3
          exact hv3

/-- A plain-text file whose content reads "hi" and whose tokenizer call
fails, used as a probe. -/
def sampleTextEnv : ExtractionEnv :=
  { pdfDoc := none, docxRaw := none, textRaw := some ['h', 'i']
    tok := Except.error "network error", tokEvents := []
    startTime := 0, processingTime := 0, extractedAt := 0 }

/-- A probe upload of that file under the name `a.txt`. -/
def sampleTextFile : UploadedFileM :=
  { name := "a.txt", type := "text/plain", env := sampleTextEnv }

/-- C3 counterexample: a batch of two files with identical name and
declared type, starting from an empty processed state, makes *two*
extraction calls — the duplicate is re-extracted, not reused, because the
reuse check consults only the state captured when the batch began. -/
theorem processDocuments_duplicate_reextracted :
    (processDocuments [] [sampleTextFile, sampleTextFile]).2 = ["a.txt", "a.txt"] ∧
    (["a.txt", "a.txt"] : List String).length ≠ 1 :=
  ⟨rfl, by decide⟩

/-- C3 (amended): duplicate-name reuse works against the documents
completed in *previous* batches, not within the current batch: for two
files of identical name and declared type, if a previously completed
document matches them, both are reused verbatim with no extraction call,
and if none matches, an extraction call is made for each of the two. -/
theorem processDocuments_prev_batch_reuse (prev : List ExtractedDocument)
    (f g : UploadedFileM) (hn : g.name = f.name) (ht : g.type = f.type) :
    (∀ d, prev.find? (fun doc =>
        doc.fileName == f.name && doc.fileType == f.type) = some d →
      processDocuments prev [f, g] = ([d, d], [])) ∧
    (prev.find? (fun doc =>
        doc.fileName == f.name && doc.fileType == f.type) = none →
      (processDocuments prev [f, g]).2 = [f.name, g.name]) := by
  obtain ⟨gn, gt, genv⟩ := g
  dsimp only at hn ht
  subst hn
  subst ht
  constructor
  · intro d hd
    simp [processDocuments, hd]
  · intro hnone
    cases hf : (extractText { name := f.name, type := f.type } f.env).result <;>
      cases hg : (extractText { name := f.name, type := f.type } genv).result <;>
        simp [processDocuments, hnone, hf, hg]

/-- A previously completed document matching the probe file `b.txt`. -/
def samplePrevDoc : ExtractedDocument :=
  { id := "b.txt-0", fileName := "b.txt", fileType := "text/plain"
    extractedText := ['h'], preprocessedText := none, tokenizedData := none
    wordCount := 1, extractedAt := 0, preprocessingStats := none }

/-- A probe upload of the sample file under the name `b.txt`. -/
def sampleTextFileB : UploadedFileM :=
  { name := "b.txt", type := "text/plain", env := sampleTextEnv }

/-- Witness for the amended C3 theorem at a concrete batch. -/
theorem processDocuments_prev_batch_reuse_witness :
    processDocuments [samplePrevDoc] [sampleTextFileB, sampleTextFileB] =
      ([samplePrevDoc, samplePrevDoc], []) :=
  (processDocuments_prev_batch_reuse [samplePrevDoc] sampleTextFileB
    sampleTextFileB rfl rfl).1 samplePrevDoc rfl

/-- C5: a file declared as the legacy binary Word format fails immediately
with the error message instructing conversion to the modern XML-based
format; no extractor is invoked (so no byte of the file is read), and the
only events are the initial one and the error report. -/
theorem extractText_msword_rejected (file : FileInfo) (env : ExtractionEnv)
    (h : file.type = "application/msword") :
    (extractText file env).result =
      Except.error "Legacy .doc files are not supported. Please convert to .docx format." ∧
    (extractText file env).calls = [] ∧
    (extractText file env).events =
      [{ id := file.name, status := StatusTag.extracting, progress := 5
         message := "Starting text extraction..." },
       { id := file.name, status := StatusTag.error, progress := 0
         message := "Extraction failed", error := some legacyDocMsg }] := by
  refine ⟨?_, ?_, ?_⟩ <;> simp [extractText, extractRaw, h, legacyDocMsg]

/-- Witness for C5 at a concrete `.doc` upload. -/
theorem extractText_msword_rejected_witness :
    (extractText { name := "old.doc", type := "application/msword" } sampleTextEnv).result =
      Except.error "Legacy .doc files are not supported. Please convert to .docx format." ∧
    (extractText { name := "old.doc", type := "application/msword" } sampleTextEnv).calls = [] ∧
    (extractText { name := "old.doc", type := "application/msword" } sampleTextEnv).events =
      [{ id := "old.doc", status := StatusTag.extracting, progress := 5
         message := "Starting text extraction..." },
       { id := "old.doc", status := StatusTag.error, progress := 0
         message := "Extraction failed", error := some legacyDocMsg }] :=
  extractText_msword_rejected
    { name := "old.doc", type := "application/msword" } sampleTextEnv rfl

/-- C8: for a 2xx service response (and a configured URL), `tokenizeText`
rejects a body without a usable `tokens` array as an invalid response, and
otherwise returns a result with `tokenCount` equal to the number of
tokens, `tokenIds` equal to the response's `token_ids` when present and
`[]` when the service omits it. -/
theorem tokenizeText_response_contract (config : TokenizationConfigType)
    (resp : TokResponse) (now : Nat)
    (hurl : jsTrimStr config.azureFunctionUrl ≠ "") (hok : resp.ok = true) :
    ((resp.tokens = JsonTokens.absentOrFalsy ∨ resp.tokens = JsonTokens.truthyNonArray) →
      tokenizeText config resp now = Except.error invalidResponseMsg) ∧
    (∀ ts, resp.tokens = JsonTokens.arr ts →
      ∃ td, tokenizeText config resp now = Except.ok td ∧
        td.tokens = ts ∧
        td.tokenCount = td.tokens.length ∧
        (∀ ids, resp.tokenIdsField = some ids → td.tokenIds = ids) ∧
        (resp.tokenIdsField = none → td.tokenIds = [])) := by
  have hne : config.azureFunctionUrl ≠ "" := by
    intro h
    apply hurl
    rw [h]
    rfl
  constructor
  · rintro (h | h) <;> simp [tokenizeText, hne, hurl, hok, h]
  · intro ts hts
    refine ⟨{ tokens := ts, tokenIds := resp.tokenIdsField.getD []
              tokenCount := ts.length
              modelName := resp.modelField.getD config.modelName
              tokenizedAt := now }, ?_, rfl, rfl, ?_, ?_⟩
    · simp [tokenizeText, hne, hurl, hok, hts]
    · intro ids hids
      simp [hids]
    · intro hids
      simp [hids]

/-- Witness for C8 at a concrete configuration and response. -/
theorem tokenizeText_response_contract_witness :
    jsTrimStr (mkTokenizationConfig none none).azureFunctionUrl ≠ "" ∧
    sampleOkResponse.ok = true ∧
    (((sampleOkResponse.tokens = JsonTokens.absentOrFalsy ∨
        sampleOkResponse.tokens = JsonTokens.truthyNonArray) →
      tokenizeText (mkTokenizationConfig none none) sampleOkResponse 0 =
        Except.error invalidResponseMsg) ∧
    (∀ ts, sampleOkResponse.tokens = JsonTokens.arr ts →
      ∃ td, tokenizeText (mkTokenizationConfig none none) sampleOkResponse 0 =
          Except.ok td ∧
        td.tokens = ts ∧
        td.tokenCount = td.tokens.length ∧
        (∀ ids, sampleOkResponse.tokenIdsField = some ids → td.tokenIds = ids) ∧
        (sampleOkResponse.tokenIdsField = none → td.tokenIds = []))) :=
  ⟨by decide, rfl,
    tokenizeText_response_contract (mkTokenizationConfig none none)
      sampleOkResponse 0 (by decide) rfl⟩

/-- C1: if the dispatch/extraction stage succeeds and the tokenizer call
fails with any error, `extractText` still returns a document with
`tokenizedData` absent, the final emitted status is `completed` with
progress 100, and a progress event noting that tokenization is unavailable
is emitted. -/
theorem extractText_tokenization_failure_isolated (file : FileInfo)
    (env : ExtractionEnv) (t : List Char) (evs : List ProcStatus)
    (cls : List String) (err : String)
    (hx : extractRaw file env = (Except.ok t, evs, cls))
    (htok : env.tok = Except.error err) :
    ∃ doc : ExtractedDocument,
      (extractText file env).result = Except.ok doc ∧
      doc.tokenizedData = none ∧
      (∃ last, (extractText file env).events.getLast? = some last ∧
        last.status = StatusTag.completed ∧ last.progress = 100) ∧
      tokUnavailableEvent file.name ∈ (extractText file env).events := by
  unfold extractText
  rw [hx]
  simp only [htok]
  refine ⟨_, rfl, rfl, ?_, ?_⟩
  · refine ⟨{ id := file.name, status := StatusTag.completed, progress := 100
              message := "Extraction completed in " ++
                toString (jsRound ((env.processingTime : ℚ) / 1000)) ++ "s. " ++
                toString (jsWordCount t) ++ " words extracted."
              error := none }, ?_, rfl, rfl⟩
    rw [List.getLast?_concat]
  · simp

/-- Witness for C1: a plain-text file extracting to "hi" with a failing
tokenizer. -/
theorem extractText_tokenization_failure_isolated_witness :
    ∃ doc : ExtractedDocument,
      (extractText { name := "a.txt", type := "text/plain" } sampleTextEnv).result =
        Except.ok doc ∧
      doc.tokenizedData = none ∧
      (∃ last,
        (extractText { name := "a.txt", type := "text/plain" } sampleTextEnv).events.getLast? =
          some last ∧
        last.status = StatusTag.completed ∧ last.progress = 100) ∧
      tokUnavailableEvent "a.txt" ∈
        (extractText { name := "a.txt", type := "text/plain" } sampleTextEnv).events :=
  extractText_tokenization_failure_isolated
    { name := "a.txt", type := "text/plain" } sampleTextEnv
    ['h', 'i'] _ ["text"] "network error" rfl rfl

/-- Unrolling the page loop of `extractFromPDF`: the accumulated text is
the concatenation of `pageText ++ "\n\n"` blocks and the events are
appended in page order. -/
theorem pdfStep_foldl (fileName : String) (N : Nat) :
    ∀ (l : List (Nat × List (List Char))) (t : List Char) (evs : List ProcStatus),
      l.foldl (pdfStep fileName N) (t, evs) =
        (t ++ (l.map (fun ip => joinSep [' '] ip.2 ++ ['\n', '\n'])).flatten,
         evs ++ l.map (fun ip => pdfPageEvent fileName (ip.1 + 1) N)) := by
  intro l
  induction l with
  | nil => intro t evs; simp
  | cons x xs ih => intro t evs; simp [pdfStep, ih, List.append_assoc]

/-- Appending the separator to every block and concatenating is joining
with the separator plus one trailing separator (nonempty case). -/
theorem join_map_append_nl2 (l : List (List Char)) (h : l ≠ []) :
    (l.map (fun x => x ++ ['\n', '\n'])).flatten =
      joinSep ['\n', '\n'] l ++ ['\n', '\n'] := by
  induction l with
  | nil => exact absurd rfl h
  | cons x xs ih =>
    cases xs with
    | nil => simp [joinSep]
    | cons y ys =>
      rw [List.map_cons, List.flatten_cons, ih (List.cons_ne_nil y ys)]
      show _ = (x ++ ['\n', '\n'] ++ joinSep ['\n', '\n'] (y :: ys)) ++ ['\n', '\n']
      simp [List.append_assoc]

/-- `trim` absorbs a trailing double newline. -/
theorem jsTrim_append_nl2 (x : List Char) :
    jsTrim (x ++ ['\n', '\n']) = jsTrim x := by
  unfold jsTrim jsTrimRight
  rw [List.reverse_append]
  simp [List.dropWhile_cons, jsWs]

/-- Mapping a function of the value over `enum` drops the indices. -/
theorem enum_map_snd_comp {β γ : Type} (l : List β) (f : β → γ) :
    l.enum.map (fun ip => f ip.2) = l.map f := by
  rw [show (fun ip : Nat × β => f ip.2) = f ∘ Prod.snd from rfl,
    ← List.map_map, List.enum_map_snd]

/-- Mapping a function of the index over `enum` is mapping it over
`range`. -/
theorem enum_map_fst_comp {β γ : Type} (l : List β) (f : Nat → γ) :
    l.enum.map (fun ip => f ip.1) = (List.range l.length).map f := by
  rw [show (fun ip : Nat × β => f ip.1) = f ∘ Prod.fst from rfl,
    ← List.map_map, List.enum_map_fst]

/-- The per-page progress value `Math.round((k / N) * 80) + 10` lies in
`[10, 90]` for `1 ≤ k ≤ N`. -/
theorem pdfPageEvent_progress_bounds (fileName : String) (k N : Nat)
    (hk1 : 1 ≤ k) (hkN : k ≤ N) :
    (10 : ℚ) ≤ (pdfPageEvent fileName k N).progress ∧
    (pdfPageEvent fileName k N).progress ≤ 90 := by
  have hN0 : (0 : ℚ) < (N : ℚ) := by
    have : 1 ≤ N := le_trans hk1 hkN
    exact_mod_cast Nat.lt_of_lt_of_le Nat.zero_lt_one this
  have hq0 : (0 : ℚ) ≤ (k : ℚ) / (N : ℚ) * 80 := by positivity
  have hq80 : (k : ℚ) / (N : ℚ) * 80 ≤ 80 := by
    have hdiv : (k : ℚ) / (N : ℚ) ≤ 1 := by
      rw [div_le_one hN0]
      exact_mod_cast hkN
    nlinarith
  have hlo : (0 : ℤ) ≤ jsRound ((k : ℚ) / (N : ℚ) * 80) := by
    rw [jsRound, Int.le_floor]
    push_cast
    linarith
  have hhi : jsRound ((k : ℚ) / (N : ℚ) * 80) ≤ 80 := by
    have : jsRound ((k : ℚ) / (N : ℚ) * 80) < 81 := by
      rw [jsRound, Int.floor_lt]
      push_cast
      linarith
    omega
  constructor
  · show (10 : ℚ) ≤ ((jsRound ((k : ℚ) / (N : ℚ) * 80) + 10 : ℤ) : ℚ)
    push_cast
    have : (0 : ℚ) ≤ ((jsRound ((k : ℚ) / (N : ℚ) * 80) : ℤ) : ℚ) := by
      exact_mod_cast hlo
    linarith
  · show ((jsRound ((k : ℚ) / (N : ℚ) * 80) + 10 : ℤ) : ℚ) ≤ 90
    push_cast
    have : ((jsRound ((k : ℚ) / (N : ℚ) * 80) : ℤ) : ℚ) ≤ 80 := by
      exact_mod_cast hhi
    linarith

/-- C6: for a PDF with at least one page, extraction visits the pages in
order 1..N — the emitted events are the load event followed by one event
per page in that order — the text is the pages' item lists each joined
with single spaces, concatenated with double-newline separators and
trimmed, and every per-page progress value `10 + round(k/N * 80)` lies in
`[10, 90]`. -/
theorem extractFromPDF_pages_order_progress (fileName : String)
    (pages : List (List (List Char))) (hp : pages ≠ []) :
    (extractFromPDF fileName (some pages)).1 =
      Except.ok (jsTrim (joinSep ['\n', '\n'] (pages.map (fun p => joinSep [' '] p)))) ∧
    (extractFromPDF fileName (some pages)).2 =
      pdfLoadEvent fileName ::
        (List.range pages.length).map (fun i => pdfPageEvent fileName (i + 1) pages.length) ∧
    ∀ k, 1 ≤ k → k ≤ pages.length →
      (10 : ℚ) ≤ (pdfPageEvent fileName k pages.length).progress ∧
      (pdfPageEvent fileName k pages.length).progress ≤ 90 := by
  have hfold := pdfStep_foldl fileName pages.length pages.enum []
    [pdfLoadEvent fileName]
  refine ⟨?_, ?_, fun k hk1 hkN => pdfPageEvent_progress_bounds fileName k pages.length hk1 hkN⟩
  · show Except.ok (jsTrim (pages.enum.foldl (pdfStep fileName pages.length)
      ([], [pdfLoadEvent fileName])).1) = _
    rw [hfold]
    simp only [List.nil_append]
    rw [enum_map_snd_comp pages (fun p => joinSep [' '] p ++ ['\n', '\n'])]
    rw [show pages.map (fun p => joinSep [' '] p ++ ['\n', '\n']) =
        (pages.map (fun p => joinSep [' '] p)).map (fun x => x ++ ['\n', '\n']) by
      rw [List.map_map]; rfl]
    rw [join_map_append_nl2 _ (by simpa using hp)]
    rw [jsTrim_append_nl2]
  · show (pages.enum.foldl (pdfStep fileName pages.length)
      ([], [pdfLoadEvent fileName])).2 = _
    rw [hfold]
    rw [enum_map_fst_comp pages (fun i => pdfPageEvent fileName (i + 1) pages.length)]
    rfl

/-- Witness for C6 at a concrete two-page PDF. -/
theorem extractFromPDF_pages_order_progress_witness :
    ([[['h', 'i']], [['y', 'o']]] : List (List (List Char))) ≠ [] ∧
    ((extractFromPDF "doc.pdf" (some [[['h', 'i']], [['y', 'o']]])).1 =
      Except.ok (jsTrim (joinSep ['\n', '\n']
        (([[['h', 'i']], [['y', 'o']]] : List (List (List Char))).map
          (fun p => joinSep [' '] p)))) ∧
    (extractFromPDF "doc.pdf" (some [[['h', 'i']], [['y', 'o']]])).2 =
      pdfLoadEvent "doc.pdf" ::
        (List.range ([[['h', 'i']], [['y', 'o']]] : List (List (List Char))).length).map
          (fun i => pdfPageEvent "doc.pdf" (i + 1)
            ([[['h', 'i']], [['y', 'o']]] : List (List (List Char))).length) ∧
    ∀ k, 1 ≤ k → k ≤ ([[['h', 'i']], [['y', 'o']]] : List (List (List Char))).length →
      (10 : ℚ) ≤ (pdfPageEvent "doc.pdf" k
        ([[['h', 'i']], [['y', 'o']]] : List (List (List Char))).length).progress ∧
      (pdfPageEvent "doc.pdf" k
        ([[['h', 'i']], [['y', 'o']]] : List (List (List Char))).length).progress ≤ 90) :=
  ⟨by decide, extractFromPDF_pages_order_progress "doc.pdf"
    [[['h', 'i']], [['y', 'o']]] (by decide)⟩

end UxForLlm
